import Mathlib

/-!
Shallow embedding of the Teensy 4.1 data-logger sketch
(src/teensy41-datalogger.ino) and proofs about its sampling clock,
buffer cursor, recording state machine and SD-card storage behaviour.

Globals of the sketch (record_daq_data, memptr, last_time_usec, psram and
the SD file system) become fields of `DaqState`; one iteration of loop()
becomes `loopStep`; StoreDataSDCard becomes `storeDataSDCard` (returning
none when the card is absent, modelling the unbounded no-card report
loop at lines 154-156, which never returns).  The global char_count is
only read back by the serial-debug routine dump_text and is therefore
not carried in the state.
-/

/-- EXTERNAL_MEM_SIZE: capacity of the EXTMEM psram arena, 1024*1024*8. -/
def EXTERNAL_MEM_SIZE : Nat := 1024 * 1024 * 8

/-- SAMPLE_PERIOD_USEC: the sample period, 400 microseconds. -/
def SAMPLE_PERIOD_USEC : Nat := 400

/-- Modulus of the 32-bit unsigned arithmetic of micros() and of
unsigned long on the Teensy 4.1. -/
def U32MOD : Nat := 4294967296

/-- 32-bit wrapping addition. -/
def addU32 (a b : Nat) : Nat := (a + b) % U32MOD

/-- Decimal digit characters of n, most significant first.  The fuel
argument bounds the recursion; `natToChars` supplies enough fuel. -/
def natToCharsAux : Nat → Nat → List Char
  | 0, _ => []
  | fuel + 1, n =>
    if n < 10 then [Nat.digitChar n]
    else natToCharsAux fuel (n / 10) ++ [Nat.digitChar (n % 10)]

/-- Decimal rendering of a Nat, as the %u family of conversions prints
a nonnegative integer. -/
def natToChars (n : Nat) : List Char := natToCharsAux (n + 1) n

/-- Zero padding to a minimum number of digits, as a %.Nu conversion
does (values with more than N digits are printed in full). -/
def padNat (w n : Nat) : List Char :=
  List.replicate (w - (natToChars n).length) '0' ++ natToChars n

/-- The sprintf of loop() line 226: format string
%.10lu,%.8lu,%u,%u,%.4u,%.4u,%.4u followed by a newline. -/
def formatSample (t cnt dir pwr cur fuel strain : Nat) : List Char :=
  padNat 10 t ++ [','] ++ padNat 8 cnt ++ [','] ++
  natToChars dir ++ [','] ++ natToChars pwr ++ [','] ++
  padNat 4 cur ++ [','] ++ padNat 4 fuel ++ [','] ++
  padNat 4 strain ++ ['\n']

/-- read_S35770_Counter: three bytes read over the bus, composed
big-endian: (b0 << 16) | (b1 << 8) | b2. -/
def composeCounter (b0 b1 b2 : Nat) : Nat :=
  ((b0 <<< 16) ||| (b1 <<< 8)) ||| b2

/-- The sample-due comparison of loop() line 203:
time_usec >= last_time_usec + SAMPLE_PERIOD_USEC, where the addition is
32-bit unsigned (wrapping) arithmetic. -/
def sampleDue (now last : Nat) : Bool :=
  decide (addU32 last SAMPLE_PERIOD_USEC ≤ now)

/-- Wrap-safe elapsed microseconds from last to now in 32-bit unsigned
arithmetic (the subtraction the spec prescribes for the due check). -/
def wrapElapsed (now last : Nat) : Nat := (now + U32MOD - last) % U32MOD

/-- Cursor update after one append (loop() lines 227-230):
memptr = memptr + char_count; if (memptr - 1 > EXTERNAL_MEM_SIZE)
memptr = 0. -/
def appendStep (m cc : Nat) : Nat :=
  if m + cc - 1 > EXTERNAL_MEM_SIZE then 0 else m + cc

/-- The cursor after k appends of nominal 39-byte records starting from
a freshly reset cursor (formatSample_length shows every record built
from in-range sample values is exactly 39 bytes). -/
def cursorIter : Nat → Nat
  | 0 => 0
  | k + 1 => appendStep (cursorIter k) 39

/-- Overwrite of the arena: the bytes cs are placed at offsets
off, off+1, ... (the copy sprintf performs into &psram[memptr]). -/
def writeChars (p : Nat → Char) (off : Nat) (cs : List Char) : Nat → Char :=
  fun j => if off ≤ j ∧ j < off + cs.length then cs.getD (j - off) (p j) else p j

/-- The data bytes StoreDataSDCard emits after the header (lines
175-177): for (i = 0; i <= memptr; i++) print(psram[i]) — note the
inclusive bound. -/
def drainFileBytes (p : Nat → Char) (m : Nat) : List Char :=
  (List.range (m + 1)).map p

/-- The header line StoreDataSDCard prints first (line 173); println on
Arduino terminates the line with CR LF. -/
def headerChars : List Char :=
  ("time_usec,flywheel_count,flywheel_direction,starter_pwr_k15,starter_current,fuel_htr_current,starter_housing_strain").toList
  ++ ['\r', '\n']

/-- The global state of the sketch: the recording flag, the psram write
cursor, the last-sample timestamp, the psram arena and the SD card
contents (suffix number and byte content of each file, in creation
order). -/
structure DaqState where
  recording : Bool
  memptr : Nat
  lastTime : Nat
  psram : Nat → Char
  fs : List (Nat × List Char)

/-- Suffix numbers already taken on the card (the names SD.exists
reports). -/
def usedSuffixes (fs : List (Nat × List Char)) : List Nat := fs.map Prod.fst

/-- The file-name search loop of StoreDataSDCard (lines 161-165):
n starts at 0 and increments while LOG_%04d.txt exists.  The fuel
argument bounds the loop; one more than the number of files on the
card always suffices. -/
def allocGo : Nat → Nat → List Nat → Nat
  | 0, n, _ => n
  | fuel + 1, n, used => if n ∈ used then allocGo fuel (n + 1) used else n

/-- The suffix number StoreDataSDCard settles on. -/
def allocateSuffix (used : List Nat) : Nat := allocGo (used.length + 1) 0 used

/-- The file name snprintf builds: LOG_%04d.txt. -/
def allocFilename (used : List Nat) : List Char :=
  ("LOG_").toList ++ padNat 4 (allocateSuffix used) ++ (".txt").toList

/-- Byte content of the file StoreDataSDCard writes: the header line
followed by psram[0..memptr] inclusive. -/
def storeFileContent (st : DaqState) : List Char :=
  headerChars ++ drainFileBytes st.psram st.memptr

/-- StoreDataSDCard (lines 140-180): checks the card (SD.begin); when
the card is absent it reports no-card forever (modelled as none);
otherwise it allocates the first unused LOG_%04d.txt name and writes
the header plus psram[0..memptr] to it.  It reads but never writes
psram, memptr and the recording flag. -/
def storeDataSDCard (sdOk : Bool) (st : DaqState) : Option DaqState :=
  if sdOk then
    some { st with
      fs := st.fs ++ [(allocateSuffix (usedSuffixes st.fs), storeFileContent st)] }
  else none

/-- The inputs one iteration of loop() reads from the hardware:
the trigger line (digitalRead START_SIG == HIGH), micros(), the three
counter bytes delivered over the bus, the two digital channels and the
three 10-bit analog channels. -/
structure TickInput where
  trigger : Bool
  now : Nat
  cntB0 : Nat
  cntB1 : Nat
  cntB2 : Nat
  dir : Nat
  pwr : Nat
  cur : Nat
  fuel : Nat
  strain : Nat

/-- Observable events of one loop() iteration. -/
structure Events where
  entered : Bool
  drained : Bool
  appended : Bool

/-- The trigger block of loop() (lines 191-201): enter recording when
not recording and the trigger is high; otherwise, when the trigger is
low, clear the flag and call StoreDataSDCard. -/
def triggerPhase (sdOk : Bool) (s : DaqState) (trig : Bool) :
    Option (DaqState × Events) :=
  if !s.recording && trig then
    some ({ s with recording := true, memptr := 0 }, ⟨true, false, false⟩)
  else if !trig then
    match storeDataSDCard sdOk { s with recording := false } with
    | none => none
    | some s' => some (s', ⟨false, true, false⟩)
  else
    some (s, ⟨false, false, false⟩)

/-- The sampling block of loop() (lines 203-232): when recording and a
sample is due, resynchronize last_time_usec to now, read the inputs,
format the record into psram at memptr (sprintf also deposits a NUL
terminator after the text) and advance the cursor with the wraparound
check.  Returns the updated state and whether a record was appended. -/
def samplePhase (s : DaqState) (i : TickInput) : DaqState × Bool :=
  if s.recording && sampleDue i.now s.lastTime then
    let line := formatSample i.now (composeCounter i.cntB0 i.cntB1 i.cntB2)
      i.dir i.pwr i.cur i.fuel i.strain
    ({ s with
        lastTime := i.now,
        psram := writeChars s.psram s.memptr (line ++ [Char.ofNat 0]),
        memptr := appendStep s.memptr line.length }, true)
  else (s, false)

/-- One full iteration of loop(): the trigger block followed by the
sampling block.  none means the iteration never returned (the no-card
report loop inside StoreDataSDCard). -/
def loopStep (sdOk : Bool) (s : DaqState) (i : TickInput) :
    Option (DaqState × Events) :=
  match triggerPhase sdOk s i.trigger with
  | none => none
  | some (s', e) =>
    let r := samplePhase s' i
    some (r.1, { e with appended := r.2 })

/-- Run loop() over a list of tick inputs, collecting the per-tick
events; a halted iteration ends the run. -/
def runTrace (sdOk : Bool) : DaqState → List TickInput → Option DaqState × List Events
  | s, [] => (some s, [])
  | s, i :: is =>
    match loopStep sdOk s i with
    | none => (none, [])
    | some (s', e) =>
      let r := runTrace sdOk s' is
      (r.1, e :: r.2)

/-- The state right after setup(): not recording, cursor 0, and
last_time_usec = micros() + SAMPLE_PERIOD_USEC (line 107).  The boot
content of the EXTMEM arena is a parameter. -/
def initState (t0 : Nat) (arena : Nat → Char) : DaqState :=
  { recording := false, memptr := 0, lastTime := addU32 t0 SAMPLE_PERIOD_USEC,
    psram := arena, fs := [] }

/-- Number of rising edges of a sampled boolean waveform, given the
level before the first sample. -/
def risingEdges : Bool → List Bool → Nat
  | _, [] => 0
  | prev, b :: bs => (if b && !prev then 1 else 0) + risingEdges b bs

/-- Number of ticks of a trace on which the Idle to Recording
transition fired. -/
def countEntered (es : List Events) : Nat := es.countP (fun e => e.entered)

/-- An all-zero boot arena used for concrete evaluations. -/
def arena0 : Nat → Char := fun _ => Char.ofNat 0

/-- A concrete arena whose byte at offset i is the digit i mod 10. -/
def cexArena : Nat → Char := fun i => Nat.digitChar (i % 10)

/-- A tick with the trigger low and nothing due. -/
def idleLowTick : TickInput := ⟨false, 0, 0, 0, 0, 0, 0, 0, 0, 0⟩

/-- A tick with the trigger high at time 1000, with a sample due. -/
def highDueTick : TickInput := ⟨true, 1000, 0, 0, 0, 0, 0, 0, 0, 0⟩

/-! ### Lengths of the formatted fields -/

theorem natToCharsAux_length_le (fuel : Nat) :
    ∀ n w : Nat, n + 1 ≤ fuel → 1 ≤ w → n < 10 ^ w →
      (natToCharsAux fuel n).length ≤ w := by
  induction fuel with
  | zero => intro n w h _ _; omega
  | succ fuel ih =>
    intro n w hf hw hn
    by_cases h10 : n < 10
    · simp [natToCharsAux, h10]
      omega
    · have hw2 : 2 ≤ w := by
        rcases Nat.lt_or_ge w 2 with h | h
        · interval_cases w
          omega
        · exact h
      have hdiv : n / 10 < 10 ^ (w - 1) := by
        rw [Nat.div_lt_iff_lt_mul (by norm_num : (0:Nat) < 10)]
        calc n < 10 ^ w := hn
          _ = 10 ^ (w - 1) * 10 := by
            rw [← Nat.pow_succ]
            congr 1
            omega
      have hfl : n / 10 + 1 ≤ fuel := by
        have hlt : n / 10 < n := Nat.div_lt_self (by omega) (by norm_num)
        have h2 : 1 ≤ n / 10 := Nat.one_le_div_iff (by norm_num) |>.mpr (by omega)
        omega
      have hrec := ih (n / 10) (w - 1) hfl (by omega) hdiv
      simp [natToCharsAux, h10, List.length_append]
      omega

theorem natToChars_length_le (n w : Nat) (hw : 1 ≤ w) (hn : n < 10 ^ w) :
    (natToChars n).length ≤ w :=
  natToCharsAux_length_le (n + 1) n w (Nat.le_refl _) hw hn

theorem natToChars_length_pos (n : Nat) : 1 ≤ (natToChars n).length := by
  unfold natToChars natToCharsAux
  by_cases h10 : n < 10 <;> simp [h10]

theorem padNat_length (w n : Nat) (h : (natToChars n).length ≤ w) :
    (padNat w n).length = w := by
  simp [padNat]
  omega

theorem natToChars_length_one (n : Nat) (h : n < 10) :
    (natToChars n).length = 1 := by
  have h1 := natToChars_length_le n 1 (Nat.le_refl _) (by simpa using h)
  have h2 := natToChars_length_pos n
  omega

/-- Every record built from in-range hardware values is exactly 39
bytes: 10 + 8 + 1 + 1 + 4 + 4 + 4 digits, 6 commas and a newline. -/
theorem formatSample_length (t cnt dir pwr cur fuel strain : Nat)
    (ht : t < U32MOD) (hc : cnt < 16777216) (hd : dir < 10) (hp : pwr < 10)
    (h1 : cur < 10000) (h2 : fuel < 10000) (h3 : strain < 10000) :
    (formatSample t cnt dir pwr cur fuel strain).length = 39 := by
  have lt : (natToChars t).length ≤ 10 :=
    natToChars_length_le t 10 (by norm_num) (by unfold U32MOD at ht; omega)
  have lc : (natToChars cnt).length ≤ 8 :=
    natToChars_length_le cnt 8 (by norm_num) (by omega)
  have l1 : (natToChars cur).length ≤ 4 :=
    natToChars_length_le cur 4 (by norm_num) (by omega)
  have l2 : (natToChars fuel).length ≤ 4 :=
    natToChars_length_le fuel 4 (by norm_num) (by omega)
  have l3 : (natToChars strain).length ≤ 4 :=
    natToChars_length_le strain 4 (by norm_num) (by omega)
  simp [formatSample, List.length_append, padNat_length _ _ lt,
    padNat_length _ _ lc, padNat_length _ _ l1, padNat_length _ _ l2,
    padNat_length _ _ l3, natToChars_length_one dir hd,
    natToChars_length_one pwr hp]

/-! ### The buffer cursor -/

theorem cursorIter_eq (k : Nat) (h : k ≤ 215092) : cursorIter k = 39 * k := by
  induction k with
  | zero => rfl
  | succ k ih =>
    have hk : k ≤ 215091 := by omega
    have ihk := ih (by omega)
    have hcond : ¬ (39 * k + 39 - 1 > EXTERNAL_MEM_SIZE) := by
      simp only [EXTERNAL_MEM_SIZE]
      omega
    simp only [cursorIter, ihk, appendStep]
    rw [if_neg hcond]
    omega

theorem cursorIter_invariant (k : Nat) :
    39 ∣ cursorIter k ∧ cursorIter k ≤ 8388588 := by
  induction k with
  | zero => simp [cursorIter]
  | succ k ih =>
    obtain ⟨⟨d, hd⟩, hle⟩ := ih
    simp only [cursorIter, appendStep, EXTERNAL_MEM_SIZE]
    split
    · simp
    · constructor
      · exact ⟨d + 1, by omega⟩
      · omega

/-! ### The file-name search loop -/

theorem allocGo_spec (fuel : Nat) :
    ∀ (n : Nat) (used : List Nat),
      (∃ m, n ≤ m ∧ m < n + fuel ∧ m ∉ used) →
      allocGo fuel n used ∉ used ∧ n ≤ allocGo fuel n used ∧
        ∀ j, n ≤ j → j < allocGo fuel n used → j ∈ used := by
  induction fuel with
  | zero =>
    intro n used h
    obtain ⟨m, h1, h2, _⟩ := h
    omega
  | succ fuel ih =>
    intro n used h
    obtain ⟨m, h1, h2, h3⟩ := h
    by_cases hn : n ∈ used
    · have hmn : m ≠ n := fun he => h3 (he ▸ hn)
      have hrec := ih (n + 1) used ⟨m, by omega, by omega, h3⟩
      obtain ⟨r1, r2, r3⟩ := hrec
      refine ⟨by simpa [allocGo, hn] using r1, ?_, ?_⟩
      · simp only [allocGo, hn, if_true]
        omega
      · intro j hj1 hj2
        simp only [allocGo, hn, if_true] at hj2
        rcases Nat.eq_or_lt_of_le hj1 with he | hlt
        · exact he ▸ hn
        · exact r3 j (by omega) hj2
    · refine ⟨by simp [allocGo, hn], by simp [allocGo, hn], ?_⟩
      intro j hj1 hj2
      simp only [allocGo, hn, if_false] at hj2
      omega

theorem exists_unused (used : List Nat) :
    ∃ m, m ≤ used.length ∧ m ∉ used := by
  by_contra hc
  push_neg at hc
  have hsub : Finset.range (used.length + 1) ⊆ used.toFinset := by
    intro x hx
    rw [Finset.mem_range] at hx
    exact List.mem_toFinset.mpr (hc x (by omega))
  have h1 : used.length + 1 ≤ used.toFinset.card := by
    have := Finset.card_le_card hsub
    simpa using this
  have h2 : used.toFinset.card ≤ used.length := List.toFinset_card_le _
  omega

/-- The search returns the smallest suffix not already on the card. -/
theorem allocateSuffix_spec (used : List Nat) :
    allocateSuffix used ∉ used ∧
      ∀ m, m < allocateSuffix used → m ∈ used := by
  obtain ⟨m, hm1, hm2⟩ := exists_unused used
  have h := allocGo_spec (used.length + 1) 0 used ⟨m, by omega, by omega, hm2⟩
  exact ⟨h.1, fun j hj => h.2.2 j (by omega) hj⟩

/-! ### Shape of one loop() iteration -/

theorem samplePhase_fields (s : DaqState) (i : TickInput) :
    (samplePhase s i).1.recording = s.recording ∧
      (samplePhase s i).1.fs = s.fs := by
  unfold samplePhase
  split <;> simp

/-- With the card present, an iteration always returns; the recording
flag afterwards equals the trigger level of the tick, and the entry
event fires exactly on ticks that see the trigger high while idle. -/
theorem loopStep_true_spec (s : DaqState) (i : TickInput) :
    ∃ s' e, loopStep true s i = some (s', e) ∧
      s'.recording = i.trigger ∧
      e.entered = (!s.recording && i.trigger) := by
  obtain ⟨rec, mp, lt, ps, fss⟩ := s
  obtain ⟨trig, now, b0, b1, b2, d, p, c, f, str⟩ := i
  cases rec <;> cases trig <;>
    exact ⟨_, _, rfl, (samplePhase_fields _ _).1, rfl⟩

theorem loopStep_enter (sdOk : Bool) (s : DaqState) (i : TickInput)
    (h1 : s.recording = false) (h2 : i.trigger = true) :
    ∃ s' e, loopStep sdOk s i = some (s', e) ∧
      e.entered = true ∧ e.drained = false ∧ s'.recording = true := by
  obtain ⟨rec, mp, lt, ps, fss⟩ := s
  obtain ⟨trig, now, b0, b1, b2, d, p, c, f, str⟩ := i
  have h1' : rec = false := h1
  have h2' : trig = true := h2
  subst h1'
  subst h2'
  exact ⟨_, _, rfl, rfl, rfl, (samplePhase_fields _ _).1⟩

/-- Inversion of one iteration: the entry event fires exactly on
idle-and-high ticks, and StoreDataSDCard runs exactly on ticks whose
trigger reads low (whether or not the machine was recording). -/
theorem loopStep_events (sdOk : Bool) (s : DaqState) (i : TickInput)
    (s' : DaqState) (e : Events) (h : loopStep sdOk s i = some (s', e)) :
    e.entered = (!s.recording && i.trigger) ∧
      e.drained = (!(!s.recording && i.trigger) && !i.trigger) ∧
      s'.recording = i.trigger := by
  obtain ⟨rec, mp, lt, ps, fss⟩ := s
  obtain ⟨trig, now, b0, b1, b2, d, p, c, f, str⟩ := i
  cases rec <;> cases trig <;> cases sdOk <;> cases h <;>
    exact ⟨rfl, rfl, (samplePhase_fields _ _).1⟩

theorem countEntered_runTrace (is : List TickInput) :
    ∀ s : DaqState,
      countEntered (runTrace true s is).2 =
        risingEdges s.recording (is.map TickInput.trigger) := by
  induction is with
  | nil => intro s; rfl
  | cons i is ih =>
    intro s
    obtain ⟨s', e, hstep, hrec, hent⟩ := loopStep_true_spec s i
    simp only [runTrace, hstep, List.map_cons, risingEdges, countEntered,
      List.countP_cons] at ih ⊢
    rw [ih s', hrec, hent]
    cases i.trigger <;> cases s.recording <;> simp [Nat.add_comm]

/-! ### The claims -/

/-- Claim C1 (code divergence): on a tick where the machine is Idle and
the trigger reads low, the claim says no transition is taken and no
drain is invoked; the code takes no transition (recording stays false)
but does invoke StoreDataSDCard, writing a fresh file on every such
tick — the else branch at lines 195-201 runs whenever the trigger is
low, whether or not the machine was recording. -/
theorem C1_drain_invoked_while_idle :
    (loopStep true (initState 0 arena0) idleLowTick).map
        (fun r => (r.2.drained, r.2.entered, r.1.recording, r.1.fs.length)) =
      some (true, false, false, 1) := rfl

/-- Claim C2 (counterexample): it is not true that every nominal append
keeps all formatted offsets within the arena.  The 215093rd append of a
39-byte record starts at cursor 8388588 and formats bytes up to offset
8388626, beyond capacity 8388608, before the wraparound check runs. -/
theorem C2_append_overruns_capacity :
    ¬ ∀ k : Nat, cursorIter k + 39 ≤ EXTERNAL_MEM_SIZE := by
  intro h
  have h1 := h 215092
  rw [cursorIter_eq 215092 (Nat.le_refl _)] at h1
  simp only [EXTERNAL_MEM_SIZE] at h1
  omega

/-- Claim C2 (amended): after each nominal 39-byte append the cursor
satisfies 0 <= memptr <= C, and the cursor wraps to 0 exactly when the
new memptr exceeds C + 1 (the coded check is memptr - 1 > C); however
the overrunning append formats its bytes before the wrap, at offsets
that may exceed the capacity (see the counterexample). -/
theorem C2_cursor_invariant :
    (∀ k : Nat, cursorIter k ≤ EXTERNAL_MEM_SIZE) ∧
      ∀ m : Nat, m + 39 > EXTERNAL_MEM_SIZE + 1 → appendStep m 39 = 0 := by
  constructor
  · intro k
    have h := (cursorIter_invariant k).2
    simp only [EXTERNAL_MEM_SIZE]
    omega
  · intro m hm
    unfold appendStep
    rw [if_pos]
    simp only [EXTERNAL_MEM_SIZE] at hm ⊢
    omega

/-- Witness for C2_cursor_invariant at concrete inputs. -/
theorem C2_cursor_invariant_witness :
    cursorIter 3 ≤ EXTERNAL_MEM_SIZE ∧
      (8388600 + 39 > EXTERNAL_MEM_SIZE + 1 ∧ appendStep 8388600 39 = 0) :=
  ⟨C2_cursor_invariant.1 3, by decide, C2_cursor_invariant.2 8388600 (by decide)⟩

/-- Claim C3 (code divergence): the coded due check compares
now >= last + 400 directly in wrapping arithmetic instead of using the
wrap-safe subtraction.  With last = 4294967096 and now = 4294967196
(elapsed 100 us) the check reads true though less than one period has
elapsed; with last = 1000 and now = 0 (elapsed 4294966296 us after the
counter wrapped) the check reads false though far more than one period
has elapsed. -/
theorem C3_due_check_not_wrap_safe :
    (sampleDue 4294967196 4294967096 = true ∧
      wrapElapsed 4294967196 4294967096 < SAMPLE_PERIOD_USEC) ∧
    (sampleDue 0 1000 = false ∧
      SAMPLE_PERIOD_USEC ≤ wrapElapsed 0 1000) := by decide

/-- Claim C4 (counterexample): draining a buffer with memptr = 2 emits
3 bytes, not the 2 the claim asserts — the dump loop bound is
inclusive (i <= memptr). -/
theorem C4_drain_writes_extra_byte :
    ¬ ((drainFileBytes cexArena 2).length = 2) := by decide

/-- Claim C4 (amended): the episode file holds the header line followed
by the memptr appended bytes psram[0..memptr-1] byte-for-byte in append
order, plus exactly one extra trailing byte psram[memptr] (the NUL
sprintf left after the last record). -/
theorem C4_drain_content (st : DaqState) :
    storeFileContent st =
      headerChars ++ ((List.range st.memptr).map st.psram ++ [st.psram st.memptr]) := by
  simp [storeFileContent, drainFileBytes, List.range_succ]

/-- Claim C5 (code divergence): with the storage device unavailable, a
boot-time trigger-high tick still acquires and appends a sample (the
card is never checked in setup()); the storage check only runs at the
first trigger-low tick, inside StoreDataSDCard, where the no-card
report loop then halts the system. -/
theorem C5_sample_acquired_without_storage :
    ((loopStep false (initState 0 arena0) highDueTick).map
        (fun r => (r.2.appended, r.1.memptr, r.2.drained)) =
      some (true, 39, false)) ∧
    loopStep false (initState 0 arena0) idleLowTick = none := ⟨rfl, rfl⟩

/-- Claim C6: over every trigger waveform the number of Idle-to-
Recording transitions equals the number of rising edges of the trigger
(taking the level before the first tick to be the current recording
flag), and the transition resets memptr to 0. -/
theorem C6_rising_edges (s : DaqState) (is : List TickInput) :
    countEntered (runTrace true s is).2 =
        risingEdges s.recording (is.map TickInput.trigger) ∧
      (s.recording = false →
        triggerPhase true s true =
          some ({ s with recording := true, memptr := 0 }, ⟨true, false, false⟩)) := by
  refine ⟨countEntered_runTrace is s, ?_⟩
  intro h
  simp [triggerPhase, h]

/-- Witness for C6_rising_edges on a concrete three-tick waveform. -/
theorem C6_rising_edges_witness :
    (countEntered (runTrace true (initState 0 arena0)
          [highDueTick, idleLowTick, highDueTick]).2 =
        risingEdges (initState 0 arena0).recording
          ([highDueTick, idleLowTick, highDueTick].map TickInput.trigger)) ∧
      triggerPhase true (initState 0 arena0) true =
        some ({ initState 0 arena0 with recording := true, memptr := 0 },
          ⟨true, false, false⟩) :=
  ⟨(C6_rising_edges (initState 0 arena0) [highDueTick, idleLowTick, highDueTick]).1,
    (C6_rising_edges (initState 0 arena0) [highDueTick, idleLowTick, highDueTick]).2 rfl⟩

/-- Claim C7: an idle tick with the trigger high enters Recording and
performs no drain on that tick; a drain never happens on a tick that
newly enters (entry and exit never both fire), and a drain only happens
on ticks whose trigger reads low, which are never entering ticks. -/
theorem C7_entry_before_exit (sdOk : Bool) (s : DaqState) (i : TickInput) :
    (s.recording = false → i.trigger = true →
      ∃ s' e, loopStep sdOk s i = some (s', e) ∧
        e.entered = true ∧ e.drained = false ∧ s'.recording = true) ∧
    (∀ s' e, loopStep sdOk s i = some (s', e) →
      ¬(e.entered = true ∧ e.drained = true)) ∧
    (∀ s' e, loopStep sdOk s i = some (s', e) → e.drained = true →
      i.trigger = false ∧ ¬(s.recording = false ∧ i.trigger = true)) := by
  refine ⟨loopStep_enter sdOk s i, ?_, ?_⟩
  · rintro s' e h ⟨he, hd⟩
    obtain ⟨h1, h2, _⟩ := loopStep_events sdOk s i s' e h
    rw [he] at h1
    rw [hd] at h2
    rw [← h1] at h2
    simp at h2
  · intro s' e h hd
    obtain ⟨h1, h2, _⟩ := loopStep_events sdOk s i s' e h
    rw [hd] at h2
    constructor
    · cases ht : i.trigger
      · rfl
      · rw [ht] at h2
        simp at h2
    · rintro ⟨hr, ht⟩
      rw [hr, ht] at h2
      simp at h2

/-- Witness for C7_entry_before_exit: a concrete single-tick high pulse
from Idle opens an episode with no drain on that tick. -/
theorem C7_entry_before_exit_witness :
    ∃ s' e, loopStep true (initState 0 arena0) highDueTick = some (s', e) ∧
      e.entered = true ∧ e.drained = false ∧ s'.recording = true :=
  (C7_entry_before_exit true (initState 0 arena0) highDueTick).1 rfl rfl

/-- Claim C8: formatting the sample record with the given field values
produces exactly the newline-terminated line of the claim, respecting
every declared field width. -/
theorem C8_format_round_trip :
    formatSample 1234567890 16777215 1 0 1023 0 512 =
      ("1234567890,16777215,1,0,1023,0000,0512\n").toList := by decide

/-- Claim C9: the name search returns the smallest unused suffix, and
with suffixes 0, 1, 2 taken it allocates LOG_0003.txt. -/
theorem C9_allocate_smallest_unused :
    (∀ used : List Nat, allocateSuffix used ∉ used ∧
        ∀ m, m < allocateSuffix used → m ∈ used) ∧
      allocateSuffix [0, 1, 2] = 3 ∧
      allocFilename [0, 1, 2] = ("LOG_0003.txt").toList := by
  refine ⟨allocateSuffix_spec, by decide, by decide⟩

/-- Witness for C9_allocate_smallest_unused at the concrete suffix set
of the claim. -/
theorem C9_allocate_smallest_unused_witness :
    allocateSuffix [0, 1, 2] ∉ ([0, 1, 2] : List Nat) ∧
      (2 : Nat) ∈ ([0, 1, 2] : List Nat) :=
  ⟨(C9_allocate_smallest_unused.1 [0, 1, 2]).1,
    (C9_allocate_smallest_unused.1 [0, 1, 2]).2 2 (by decide)⟩

/-- Claim C10: StoreDataSDCard leaves psram, memptr, the recording flag
(and the sample clock) unchanged; two consecutive invocations with no
intervening append create two files with distinct suffixes and
identical byte content. -/
theorem C10_store_frame (st : DaqState) :
    ∃ st1 st2 n1 n2 c,
      storeDataSDCard true st = some st1 ∧
      storeDataSDCard true st1 = some st2 ∧
      st1.psram = st.psram ∧ st1.memptr = st.memptr ∧
      st1.recording = st.recording ∧ st1.lastTime = st.lastTime ∧
      st2.fs = st.fs ++ [(n1, c), (n2, c)] ∧ n1 ≠ n2 := by
  refine ⟨_, _, allocateSuffix (usedSuffixes st.fs),
    allocateSuffix (usedSuffixes (st.fs ++
      [(allocateSuffix (usedSuffixes st.fs), storeFileContent st)])),
    storeFileContent st, rfl, rfl, rfl, rfl, rfl, rfl, ?_, ?_⟩
  · simp [storeDataSDCard, storeFileContent, List.append_assoc]
  · intro he
    have hspec := (allocateSuffix_spec (usedSuffixes (st.fs ++
      [(allocateSuffix (usedSuffixes st.fs), storeFileContent st)]))).1
    rw [← he] at hspec
    exact hspec (by simp [usedSuffixes])
